import Mathlib

/-
Verification development for angrop's `rop_utils.py`, the register
dependency / controllability analysis core and its stepping driver.

The source is shallowly embedded: claripy bit-vector ASTs become the
inductive type `Angrop.Expr`; a simuvex machine state becomes the pure
record `Angrop.SimState` (its attached solver `state.se` is an oracle
record of query functions, since the SMT backend is an external
collaborator); Python in-place mutation is rendered by explicit state
passing, with `state.copy()` made explicit through `state_copy`.
-/

set_option maxHeartbeats 1000000
set_option maxRecDepth 8192

namespace Angrop

/-- Bit-vector expressions as produced by the external symbolic engine
(claripy ASTs): concrete constants, named symbolic roots (`BVS`), and the
operations appearing in the analyzed code (`+` and `&`). -/
inductive Expr where
  | const (size : Nat) (val : Nat)
  | bvs (size : Nat) (name : String)
  | add (e1 e2 : Expr)
  | and (e1 e2 : Expr)
deriving DecidableEq

/-- Bit width of an expression (`ast.size()`); binary operators keep the
width of their left operand. -/
def Expr.size : Expr → Nat
  | .const s _ => s
  | .bvs s _ => s
  | .add e1 _ => e1.size
  | .and e1 _ => e1.size

/-- Named symbolic roots of an expression (`ast.variables`). -/
def Expr.variables : Expr → List String
  | .const _ _ => []
  | .bvs _ n => [n]
  | .add e1 e2 => e1.variables ++ e2.variables
  | .and e1 e2 => e1.variables ++ e2.variables

/-- Whether the expression mentions any symbolic root (`ast.symbolic`). -/
def Expr.symbolic (e : Expr) : Bool := !e.variables.isEmpty

/-- Evaluation of an expression under an assignment of its symbolic
roots, with modular bit-vector semantics. -/
def Expr.eval (env : String → Nat) : Expr → Nat
  | .const s v => v % 2 ^ s
  | .bvs s n => env n % 2 ^ s
  | .add e1 e2 => (Expr.eval env e1 + Expr.eval env e2) % 2 ^ e1.size
  | .and e1 e2 => Nat.land (Expr.eval env e1) (Expr.eval env e2) % 2 ^ e1.size

/-- Interface of the external SMT solver attached to a state
(`state.se`).  `satisfiable cs extra` answers whether the state's
constraints `cs` together with the `extra_constraints` are jointly
satisfiable; `any_n_int cs ast n` enumerates up to `n` distinct
satisfying values of `ast` under `cs`.  A constraint is an equality
`expression == value` — the only form this code ever adds. -/
structure Solver where
  satisfiable : List (Expr × Nat) → List (Expr × Nat) → Bool
  any_n_int : List (Expr × Nat) → Expr → Nat → List Nat

/-- A simuvex machine state, reduced to the fields this module touches:
`arch.bits`, the instruction pointer, register contents (`registers`),
the engine option set, the accumulated path constraints, the log of
symbolic memory stores, the solver timeout, and the attached solver. -/
structure SimState where
  bits : Nat
  ip : Nat
  regs : String → Expr
  options : List String
  constraints : List (Expr × Nat)
  mem_writes : List (Expr × Expr)
  solver_timeout : Option Nat
  se : Solver

/-- A deep fork of a state (`state.copy()`); in the pure embedding the
fork is the value itself, and all updates to the fork are local. -/
def state_copy (s : SimState) : SimState := s

/-- Accumulate one constraint (`state.add_constraints(expr == val)`). -/
def add_constraints (s : SimState) (c : Expr × Nat) : SimState :=
  { s with constraints := s.constraints ++ [c] }

/-- Store an expression into a register (`state.registers.store`). -/
def setReg (s : SimState) (r : String) (e : Expr) : SimState :=
  { s with regs := fun r' => if r' = r then e else s.regs r' }

/-- Python `set.add` on a state's option set. -/
def addOption (s : SimState) (o : String) : SimState :=
  if o ∈ s.options then s else { s with options := s.options ++ [o] }

/-- Add a collection of options (`add_options` / `options.update`). -/
def addOptions (s : SimState) (os : List String) : SimState :=
  os.foldl addOption s

/-- Remove a collection of options (`remove_options`). -/
def removeOptions (s : SimState) (os : List String) : SimState :=
  { s with options := s.options.filter (fun x => !(os.contains x)) }

/-- Python `set.discard` on a state's option set. -/
def discardOption (s : SimState) (o : String) : SimState :=
  { s with options := s.options.filter (fun x => x != o) }

/-- Python `var.startswith(pre)`, computed on the character lists so
that concrete instances evaluate by kernel reduction. -/
def pyStartsWith (var pre : String) : Bool :=
  var.data.take pre.data.length == pre.data

/-- Strip the tagging convention from a root name: `var[5:].split("-")[0]`
for a name known to start with `"sreg_"`. -/
def decodeTag (var : String) : String :=
  String.mk ((var.data.drop 5).takeWhile (fun c => c ≠ '-'))

/-- Loop body of `get_ast_dependency`: fold over the root names,
collecting decoded tags, but bail out with the empty result as soon as a
root does not follow the `"sreg_"` tagging convention. -/
def dependencyLoop (dependencies : Finset String) : List String → Finset String
  | [] => dependencies
  | var :: rest =>
      if pyStartsWith var "sreg_" then
        dependencyLoop (insert (decodeTag var) dependencies) rest
      else ∅

/-- The dependency extractor `get_ast_dependency(ast)`: the set of
register names decoded from the expression's tagged roots, or the empty
result when some root is untagged (Python returns the empty list `[]`
there; both empties are the `∅` of the embedding). -/
def get_ast_dependency (ast : Expr) : Finset String :=
  dependencyLoop ∅ ast.variables

/-- Python string repetition `s * n`. -/
def pyStrMul (s : String) : Nat → String
  | 0 => ""
  | n + 1 => s ++ pyStrMul s n

/-- Python `int(s, 2)`: parse a binary digit string. -/
def binInt (s : String) : Nat :=
  s.data.foldl (fun a c => 2 * a + (if c = '1' then 1 else 0)) 0

/-- Probe value `test_val_0 = 0x0` of `unconstrained_check`. -/
def test_val_0 (_size : Nat) : Nat := 0x0

/-- Probe value `test_val_1 = (1 << size) - 1`. -/
def test_val_1 (size : Nat) : Nat := (1 <<< size) - 1

/-- Probe value `test_val_2 = int("1010"*16, 2) % (1 << size)`. -/
def test_val_2 (size : Nat) : Nat := binInt (pyStrMul "1010" 16) % (1 <<< size)

/-- Probe value `test_val_3 = int("0101"*16, 2) % (1 << size)`. -/
def test_val_3 (size : Nat) : Nat := binInt (pyStrMul "0101" 16) % (1 <<< size)

/-- Probe value `test_val_4`, built in the source from the binary string
`"1001"*2 + "1010"*2 + "1011"*2 + "1100"*2 + "1101"*2 + "1110"*2 +
"1110"*2 + "0001"*2`, reduced modulo `1 << size`. -/
def test_val_4 (size : Nat) : Nat :=
  binInt (pyStrMul "1001" 2 ++ pyStrMul "1010" 2 ++ pyStrMul "1011" 2 ++
    pyStrMul "1100" 2 ++ pyStrMul "1101" 2 ++ pyStrMul "1110" 2 ++
    pyStrMul "1110" 2 ++ pyStrMul "0001" 2) % (1 <<< size)

/-- The unconstrained-value heuristic `unconstrained_check(state, ast)`:
true exactly when each of the five probe values is reported satisfiable
for `ast` under the state's constraints. -/
def unconstrained_check (state : SimState) (ast : Expr) : Bool :=
  let size := ast.size
  if !(state.se.satisfiable state.constraints [(ast, test_val_0 size)]) then false
  else if !(state.se.satisfiable state.constraints [(ast, test_val_1 size)]) then false
  else if !(state.se.satisfiable state.constraints [(ast, test_val_2 size)]) then false
  else if !(state.se.satisfiable state.constraints [(ast, test_val_3 size)]) then false
  else if !(state.se.satisfiable state.constraints [(ast, test_val_4 size)]) then false
  else true

/-- The pinning loop shared by both passes of `get_ast_controllers`: for
each register of `regs`, skip it if its loaded value is not symbolic,
otherwise add the constraint `register == test_val`. -/
def pin_to_test_val (test_val : Nat) (st : SimState) (regs : List String) : SimState :=
  regs.foldl
    (fun constrained_copy reg =>
      if !(constrained_copy.regs reg).symbolic then constrained_copy
      else add_constraints constrained_copy (constrained_copy.regs reg, test_val))
    st

/-- The controllability prober `get_ast_controllers(test_state, ast,
reg_deps)`.  Non-symbolic expressions yield no controllers; a fork with
every symbolic dependency pinned to the sentinel must leave at most one
value for `ast`, else the result is empty; finally each register is
tested individually by pinning all other dependencies and running
`unconstrained_check`. -/
def get_ast_controllers (test_state : SimState) (ast : Expr) (reg_deps : List String) :
    List String :=
  let test_val := 0x4141414141414141 % (2 <<< test_state.bits)
  let controllers : List String := []
  if !ast.symbolic then controllers
  else
    let constrained_copy := pin_to_test_val test_val (state_copy test_state) reg_deps
    if (constrained_copy.se.any_n_int constrained_copy.constraints ast 2).length > 1 then
      controllers
    else
      reg_deps.foldl
        (fun controllers reg =>
          let constrained_copy :=
            pin_to_test_val test_val (state_copy test_state)
              (reg_deps.filter (fun a => a ≠ reg))
          if unconstrained_check constrained_copy ast then controllers ++ [reg]
          else controllers)
        controllers

/-- Architecture descriptor for `get_reg_name`: word width in bits and
the `register_names` table mapping a base byte offset to a name
(offsets of real register files are non-negative). -/
structure RegArch where
  bits : Nat
  register_names : List (Nat × String)

/-- Dictionary lookup `offset in arch.register_names` /
`arch.register_names[offset]`. -/
def lookupTable (table : List (Nat × String)) (off : Nat) : Option String :=
  (table.find? (fun p => p.1 = off)).map (fun p => p.2)

/-- The scan loop of `get_reg_name`, encoded by counting down: the
argument `k` stands for `reg_offset + 1`, so `k = 0` is the exit of the
Python condition `reg_offset >= 0`, and at `k + 1` the current offset is
`k`, checked against the lower bound `original_offset - arch.bits/8`. -/
def regNameLoop (table : List (Nat × String)) (bound : Int) : Nat → Option String
  | 0 => none
  | k + 1 =>
      if bound ≤ (k : Int) then
        match lookupTable table k with
        | some name => some name
        | none => regNameLoop table bound k
      else none

/-- The register resolver `get_reg_name(arch, reg_offset)`: `None`
offsets fail at once; a negative offset never enters the loop (the
Python condition `reg_offset >= 0` fails) and also fails; otherwise the
loop scans downward from the offset, bounded below by
`original_offset - arch.bits/8`, returning the first table hit. -/
def get_reg_name (arch : RegArch) (reg_offset : Option Int) : Except String String :=
  match reg_offset with
  | none => Except.error "register offset is None"
  | some original_offset =>
      if original_offset < 0 then
        Except.error ("register " ++ toString original_offset ++ " not found")
      else
        match regNameLoop arch.register_names
            (original_offset - ((arch.bits / 8 : Nat) : Int))
            (original_offset.toNat + 1) with
        | some name => Except.ok name
        | none => Except.error ("register " ++ toString original_offset ++ " not found")

/-- An execution path wrapping a state (`project.factory.path`), with
its error flag, error message, and current address. -/
structure Path where
  state : SimState
  errored : Bool
  error : String
  addr : Nat

/-- Result of advancing a path one step (`p.step()`): the constrained
successors (`p.successors`), the unconstrained successors
(`p.unconstrained_successors`), and whether the engine raised
`simuvex.UnsupportedSyscallError` during the step. -/
structure StepOutcome where
  successors : List Path
  unconstrained_successors : List Path
  raises_unsupported_syscall : Bool

/-- The target program handle: architecture word width, the state the
factory's `blank_state` produces, the externally defined simuvex option
sets `resilience_options` and `simplification`, the hook predicate
`project.is_hooked`, and the engine's single-step function. -/
structure Project where
  bits : Nat
  blank_state : SimState
  resilience_options : List String
  simplification : List String
  is_hooked : Nat → Bool
  step : Path → StepOutcome

/-- The simuvex option `BYPASS_UNSUPPORTED_SYSCALL`. -/
def bypass_unsupported_syscall : String := "BYPASS_UNSUPPORTED_SYSCALL"

/-- Wrap a state in a fresh path (`project.factory.path(state=state)`). -/
def entry_path (s : SimState) : Path :=
  { state := s, errored := false, error := "", addr := s.ip }

/-- Typed failures of the stepper, one per `raise` site of
`step_to_unconstrained_successor`. -/
inductive StepFailure where
  | pathErrored (msg : String)
  | unsupportedSyscall
  | ambiguousSuccessor
  | hookedProcedure
  | budgetExhausted
deriving DecidableEq

/-- Outcome of one iteration of the stepper before the budget and hook
policies are applied: a failure, the single constrained successor, or
the single unconstrained successor. -/
inductive StepClass where
  | failed (f : StepFailure)
  | constrained (s : Path)
  | unconstrained (u : Path)

/-- The per-iteration checks of `step_to_unconstrained_successor`, in
source order: an errored path raises at once; a step raising
`UnsupportedSyscallError` is caught; a successor count (constrained plus
unconstrained) other than one raises the single-successor error;
otherwise the one successor is returned, classified as constrained
(`p.successors == [s]`) or unconstrained
(`p.unconstrained_successors[0]`). -/
def classifyStep (project : Project) (p : Path) : StepClass :=
  if p.errored then StepClass.failed (StepFailure.pathErrored p.error)
  else
    let out := project.step p
    if out.raises_unsupported_syscall then StepClass.failed StepFailure.unsupportedSyscall
    else if out.successors.length + out.unconstrained_successors.length ≠ 1 then
      StepClass.failed StepFailure.ambiguousSuccessor
    else
      match out.successors with
      | [s] => StepClass.constrained s
      | _ =>
          match out.unconstrained_successors with
          | u :: _ => StepClass.unconstrained u
          | [] => StepClass.failed StepFailure.ambiguousSuccessor

/-- The recursion of `step_to_unconstrained_successor` over the step
budget.  A constrained successor with budget left is checked against the
hook policy and re-entered — the recursive call in the source passes
`p.successors[0].state` together with the path wrapping that same state
object, so the in-place option add of the re-entry lands on the
successor's state, rendered here by updating the path's state field.  A
constrained successor with no budget left is the budget-exhaustion
failure, and an unconstrained successor is the designed success. -/
def stepDrive (project : Project) (allow_simprocedures : Bool) :
    Nat → Path → Except StepFailure Path
  | 0, p =>
      match classifyStep project p with
      | StepClass.failed f => Except.error f
      | StepClass.constrained _ => Except.error StepFailure.budgetExhausted
      | StepClass.unconstrained u => Except.ok u
  | m + 1, p =>
      match classifyStep project p with
      | StepClass.failed f => Except.error f
      | StepClass.constrained s =>
          if !allow_simprocedures && project.is_hooked s.addr then
            Except.error StepFailure.hookedProcedure
          else
            stepDrive project allow_simprocedures m
              { s with state := addOption s.state bypass_unsupported_syscall }
      | StepClass.unconstrained u => Except.ok u

/-- The stepper `step_to_unconstrained_successor(project, state, path,
max_steps, allow_simprocedures)`.  The second component of the result is
the caller-visible value of the `state` argument after the call: the
Python body begins with the in-place mutation
`state.options.add(BYPASS_UNSUPPORTED_SYSCALL)`, rendered here by
returning the updated state.  When a path is supplied it wraps the very
state passed alongside it (as in the recursive call), so the option add
is visible through the path as well. -/
def step_to_unconstrained_successor (project : Project) (state : SimState)
    (path : Option Path) (max_steps : Nat) (allow_simprocedures : Bool) :
    Except StepFailure Path × SimState :=
  let state := addOption state bypass_unsupported_syscall
  let p : Path :=
    match path with
    | none => entry_path state
    | some q => { q with state := addOption q.state bypass_unsupported_syscall }
  (stepDrive project allow_simprocedures max_steps p, state)

/-- Options passed as `add_options` to `blank_state` in
`make_initial_state`. -/
def rop_add_options : List String :=
  ["AVOID_MULTIVALUED_READS", "AVOID_MULTIVALUED_WRITES",
   "NO_SYMBOLIC_JUMP_RESOLUTION", "CGC_NO_SYMBOLIC_RECEIVE_LENGTH",
   "NO_SYMBOLIC_SYSCALL_RESOLUTION", "TRACK_ACTION_HISTORY"]

/-- Options added by `options.update` in `make_initial_state`. -/
def rop_track_options : List String :=
  ["TRACK_REGISTER_ACTIONS", "TRACK_MEMORY_ACTIONS", "TRACK_JMP_ACTIONS",
   "TRACK_CONSTRAINT_ACTIONS"]

/-- The option adjustments of `make_initial_state`, in source order:
`blank_state(add_options=..., remove_options=resilience|simplification)`,
then `options.discard(CGC_ZERO_FILL_UNCONSTRAINED_MEMORY)`, then
`options.update({TRACK_...})`. -/
def rop_blank_state (project : Project) : SimState :=
  addOptions
    (discardOption
      (removeOptions (addOptions project.blank_state rop_add_options)
        (project.resilience_options ++ project.simplification))
      "CGC_ZERO_FILL_UNCONSTRAINED_MEMORY")
    rop_track_options

/-- The symbolic-stack store of `make_initial_state`:
`initial_state.mem[initial_state.regs.sp:] = symbolic_stack` with a
fresh `BVS` of `project.arch.bits * stack_length` bits. -/
def write_symbolic_stack (project : Project) (stack_length : Nat)
    (initial_state : SimState) : SimState :=
  { initial_state with
      mem_writes := initial_state.mem_writes ++
        [(initial_state.regs "sp", Expr.bvs (project.bits * stack_length) "symbolic_stack")] }

/-- The frame-pointer assignment of `make_initial_state`:
`initial_state.regs.bp = initial_state.regs.sp + 20*initial_state.arch.bits`
(the integer is promoted to a bit-vector of the stack pointer's width). -/
def set_rop_bp (initial_state : SimState) : SimState :=
  setReg initial_state "bp"
    (Expr.add (initial_state.regs "sp")
      (Expr.const (initial_state.regs "sp").size (20 * initial_state.bits)))

/-- The entry-state builder `make_initial_state(project, stack_length)`:
blank state with the rop option adjustments, a fresh symbolic stack of
`project.arch.bits * stack_length` bits written at the stack pointer,
the frame pointer set to `sp + 20 * initial_state.arch.bits`, and the
solver timeout capped at 500 ms. -/
def make_initial_state (project : Project) (stack_length : Nat) : SimState :=
  { set_rop_bp (write_symbolic_stack project stack_length (rop_blank_state project)) with
      solver_timeout := some 500 }

/-- The `i`-th 4-bit nibble of a value, least significant first. -/
def nibbleAt (v i : Nat) : Nat := v / 16 ^ i % 16

/-- A solver oracle whose enumeration query reports two distinct
satisfying values, as a solver does on an expression that is not pinned
down by its constraints. -/
def demoSolver : Solver :=
  { satisfiable := fun _ _ => true, any_n_int := fun _ _ n => List.range n }

/-- A solver oracle for a fully attacker-controlled expression: every
probe is satisfiable and the enumeration stops after a single value. -/
def freeSolver : Solver :=
  { satisfiable := fun _ _ => true, any_n_int := fun _ _ _ => [0x41] }

/-- A minimal concrete machine state with concrete registers. -/
def demoState : SimState :=
  { bits := 64, ip := 0x400000, regs := fun _ => Expr.const 64 0, options := [],
    constraints := [], mem_writes := [], solver_timeout := none, se := demoSolver }

/-- A state whose `rax` holds a tagged symbolic root. -/
def symDemoState : SimState :=
  { demoState with
      regs := fun r => if r = "rax" then Expr.bvs 64 "sreg_rax-" else Expr.const 64 0 }

/-- The symbolic-`rax` state paired with the fully-free solver oracle. -/
def freeDemoState : SimState :=
  { symDemoState with se := freeSolver }

/-- A state with a concrete stack pointer, for the entry-state builder. -/
def spDemoState : SimState :=
  { demoState with
      regs := fun r => if r = "sp" then Expr.const 64 4096 else Expr.const 64 0 }

/-- A program handle whose engine step yields exactly one constrained
successor (the stepped path itself). -/
def oneSuccProject : Project :=
  { bits := 64, blank_state := spDemoState, resilience_options := [],
    simplification := [], is_hooked := fun _ => false,
    step := fun p =>
      { successors := [p], unconstrained_successors := [],
        raises_unsupported_syscall := false } }

/-- A program handle whose engine step yields two constrained
successors. -/
def twoSuccProject : Project :=
  { bits := 64, blank_state := spDemoState, resilience_options := [],
    simplification := [], is_hooked := fun _ => false,
    step := fun p =>
      { successors := [p, p], unconstrained_successors := [],
        raises_unsupported_syscall := false } }

/-- A concrete 64-bit architecture descriptor with two registers. -/
def demoArch : RegArch :=
  { bits := 64, register_names := [(0, "rax"), (8, "rbx")] }

/-- An expression built only from tagged roots. -/
def taggedAst : Expr :=
  Expr.and (Expr.bvs 64 "sreg_rax-64") (Expr.bvs 64 "sreg_rbx-64")

/-- An expression with one tagged root and one untagged root. -/
def untaggedAst : Expr :=
  Expr.and (Expr.bvs 64 "sreg_rax-64") (Expr.bvs 64 "mem_7fff")

/-- When every root is tagged, the dependency loop accumulates exactly
the decoded tags on top of what it already holds. -/
theorem dependencyLoop_tagged (vars : List String) :
    ∀ deps : Finset String, (∀ v ∈ vars, pyStartsWith v "sreg_" = true) →
      dependencyLoop deps vars = deps ∪ (vars.map decodeTag).toFinset := by
  induction vars with
  | nil => intro deps _; simp [dependencyLoop]
  | cons v rest ih =>
      intro deps h
      have hv : pyStartsWith v "sreg_" = true := h v (List.mem_cons_self v rest)
      rw [dependencyLoop, if_pos hv, ih _ (fun w hw => h w (List.mem_cons_of_mem v hw))]
      rw [List.map_cons, List.toFinset_cons, Finset.insert_union, Finset.union_insert]

/-- As soon as some root is untagged, the dependency loop returns the
empty result no matter what it has accumulated. -/
theorem dependencyLoop_untagged (vars : List String) :
    ∀ deps : Finset String, (∃ v ∈ vars, pyStartsWith v "sreg_" = false) →
      dependencyLoop deps vars = ∅ := by
  induction vars with
  | nil => intro deps h; simp at h
  | cons v rest ih =>
      intro deps h
      by_cases hv : pyStartsWith v "sreg_" = true
      · rw [dependencyLoop, if_pos hv]
        rcases h with ⟨w, hw, hwf⟩
        rcases List.mem_cons.mp hw with rfl | hw'
        · rw [hv] at hwf; cases hwf
        · exact ih _ ⟨w, hw', hwf⟩
      · rw [dependencyLoop, if_neg hv]

/-- C4: for every symbolic expression, `get_ast_dependency` returns
exactly the set of register names decoded from its tagged roots when
every named root carries the `"sreg_"` tagging convention, and returns
the empty result when any root does not, regardless of tagged roots also
present. -/
theorem get_ast_dependency_spec (ast : Expr) :
    ((∀ v ∈ ast.variables, pyStartsWith v "sreg_" = true) →
        get_ast_dependency ast = (ast.variables.map decodeTag).toFinset)
    ∧ ((∃ v ∈ ast.variables, pyStartsWith v "sreg_" = false) →
        get_ast_dependency ast = ∅) := by
  constructor
  · intro h
    rw [get_ast_dependency, dependencyLoop_tagged _ _ h, Finset.empty_union]
  · intro h
    rw [get_ast_dependency, dependencyLoop_untagged _ _ h]

/-- Witness for C4: a fully tagged expression decodes to its tag set,
and one untagged root empties the result. -/
theorem get_ast_dependency_spec_witness :
    ((∀ v ∈ taggedAst.variables, pyStartsWith v "sreg_" = true) ∧
      get_ast_dependency taggedAst = (taggedAst.variables.map decodeTag).toFinset) ∧
    ((∃ v ∈ untaggedAst.variables, pyStartsWith v "sreg_" = false) ∧
      get_ast_dependency untaggedAst = ∅) :=
  ⟨⟨by decide, (get_ast_dependency_spec taggedAst).1 (by decide)⟩,
   ⟨by decide, (get_ast_dependency_spec untaggedAst).2 (by decide)⟩⟩

/-- Counterexample for C2: the fifth probe value at width 64 is the
constant `0x99AABBCCDDEEEE11`, whose neighboring 4-bit nibbles do not
all differ (its nibbles come in equal pairs, and the `0xEE` byte even
repeats); moreover at widths beyond 64 the second and third probe
values are not the `1010…`/`0101…` patterns repeated to the width, but
the 64-bit patterns unchanged. -/
theorem unconstrained_check_probe_cex :
    (test_val_4 64 = 0x99AABBCCDDEEEE11 ∧
      ¬ (∀ i, i < 15 → nibbleAt (test_val_4 64) i ≠ nibbleAt (test_val_4 64) (i + 1))) ∧
    test_val_2 128 ≠ binInt (pyStrMul "1010" 32) ∧
    test_val_3 128 ≠ binInt (pyStrMul "0101" 32) := by
  decide

/-- C2 (amended): `unconstrained_check` returns true exactly when each
of the five probe values is satisfiable for the expression under the
state's constraints; the probe values are `0`, `2^n - 1`, and the 64-bit
constants `0xAAAAAAAAAAAAAAAA`, `0x5555555555555555` and
`0x99AABBCCDDEEEE11`, each reduced modulo `2^n`. -/
theorem unconstrained_check_iff (state : SimState) (ast : Expr) :
    (test_val_0 ast.size = 0 ∧
     test_val_1 ast.size = 2 ^ ast.size - 1 ∧
     test_val_2 ast.size = 0xAAAAAAAAAAAAAAAA % 2 ^ ast.size ∧
     test_val_3 ast.size = 0x5555555555555555 % 2 ^ ast.size ∧
     test_val_4 ast.size = 0x99AABBCCDDEEEE11 % 2 ^ ast.size) ∧
    (unconstrained_check state ast = true ↔
      (state.se.satisfiable state.constraints [(ast, test_val_0 ast.size)] = true ∧
       state.se.satisfiable state.constraints [(ast, test_val_1 ast.size)] = true ∧
       state.se.satisfiable state.constraints [(ast, test_val_2 ast.size)] = true ∧
       state.se.satisfiable state.constraints [(ast, test_val_3 ast.size)] = true ∧
       state.se.satisfiable state.constraints [(ast, test_val_4 ast.size)] = true)) := by
  constructor
  · refine ⟨rfl, ?_, ?_, ?_, ?_⟩
    · rw [test_val_1, Nat.shiftLeft_eq, one_mul]
    · rw [test_val_2, Nat.shiftLeft_eq, one_mul]
      norm_num [show binInt (pyStrMul "1010" 16) = 0xAAAAAAAAAAAAAAAA from by decide]
    · rw [test_val_3, Nat.shiftLeft_eq, one_mul]
      norm_num [show binInt (pyStrMul "0101" 16) = 0x5555555555555555 from by decide]
    · rw [test_val_4, Nat.shiftLeft_eq, one_mul]
      norm_num [show binInt (pyStrMul "1001" 2 ++ pyStrMul "1010" 2 ++ pyStrMul "1011" 2 ++
        pyStrMul "1100" 2 ++ pyStrMul "1101" 2 ++ pyStrMul "1110" 2 ++
        pyStrMul "1110" 2 ++ pyStrMul "0001" 2) = 0x99AABBCCDDEEEE11 from by decide]
  · rw [unconstrained_check]
    cases h0 : state.se.satisfiable state.constraints [(ast, test_val_0 ast.size)] <;>
      cases h1 : state.se.satisfiable state.constraints [(ast, test_val_1 ast.size)] <;>
      cases h2 : state.se.satisfiable state.constraints [(ast, test_val_2 ast.size)] <;>
      cases h3 : state.se.satisfiable state.constraints [(ast, test_val_3 ast.size)] <;>
      cases h4 : state.se.satisfiable state.constraints [(ast, test_val_4 ast.size)] <;>
      simp [h0, h1, h2, h3, h4]

/-- Adding a constraint never changes register contents, the
architecture width, or the attached solver. -/
theorem add_constraints_regs (s : SimState) (c : Expr × Nat) :
    (add_constraints s c).regs = s.regs ∧ (add_constraints s c).bits = s.bits ∧
      (add_constraints s c).se = s.se :=
  ⟨rfl, rfl, rfl⟩

/-- The pinning loop leaves registers, width and solver unchanged. -/
theorem pin_to_test_val_state (test_val : Nat) (regs : List String) :
    ∀ st : SimState, (pin_to_test_val test_val st regs).regs = st.regs ∧
      (pin_to_test_val test_val st regs).bits = st.bits ∧
      (pin_to_test_val test_val st regs).se = st.se := by
  induction regs with
  | nil => intro st; exact ⟨rfl, rfl, rfl⟩
  | cons r rest ih =>
      intro st
      rw [pin_to_test_val, List.foldl_cons]
      by_cases h : (st.regs r).symbolic = true
      · rw [h]
        exact ih (add_constraints st (st.regs r, test_val))
      · rw [Bool.not_eq_true] at h
        rw [h]
        exact ih st

/-- The constraints of the pinning loop's result are the incoming ones
followed by one sentinel equality per symbolic register, in order. -/
theorem pin_to_test_val_constraints (test_val : Nat) (regs : List String) :
    ∀ st : SimState, (pin_to_test_val test_val st regs).constraints =
      st.constraints ++
        (regs.filter (fun r => (st.regs r).symbolic)).map
          (fun r => (st.regs r, test_val)) := by
  induction regs with
  | nil => intro st; simp [pin_to_test_val]
  | cons r rest ih =>
      intro st
      rw [pin_to_test_val, List.foldl_cons]
      by_cases h : (st.regs r).symbolic = true
      · rw [h]
        show (pin_to_test_val test_val (add_constraints st (st.regs r, test_val)) rest).constraints = _
        rw [ih (add_constraints st (st.regs r, test_val))]
        simp [add_constraints, List.filter_cons, h]
      · rw [Bool.not_eq_true] at h
        rw [h]
        show (pin_to_test_val test_val st rest).constraints = _
        rw [ih st]
        simp [List.filter_cons, h]

/-- C3: in `get_ast_controllers` the forked state used by the
consistency guard carries, beyond the original constraints, exactly one
sentinel equality per symbolic dependency register, the sentinel being
`0x4141414141414141` reduced modulo `2 * 2^wordBits`; and whenever the
solver still enumerates two or more distinct values for the expression
under that fork, the function returns the empty controller set. -/
theorem get_ast_controllers_guard (test_state : SimState) (ast : Expr)
    (reg_deps : List String) :
    ((pin_to_test_val (0x4141414141414141 % (2 <<< test_state.bits))
        (state_copy test_state) reg_deps).constraints =
      test_state.constraints ++
        (reg_deps.filter (fun r => (test_state.regs r).symbolic)).map
          (fun r => (test_state.regs r, 0x4141414141414141 % (2 <<< test_state.bits))))
    ∧ 0x4141414141414141 % (2 <<< test_state.bits) =
        0x4141414141414141 % (2 * 2 ^ test_state.bits)
    ∧ ((test_state.se.any_n_int
          (pin_to_test_val (0x4141414141414141 % (2 <<< test_state.bits))
            (state_copy test_state) reg_deps).constraints ast 2).length > 1 →
        get_ast_controllers test_state ast reg_deps = []) := by
  refine ⟨pin_to_test_val_constraints _ _ _, by rw [Nat.shiftLeft_eq], ?_⟩
  intro h
  simp only [state_copy] at h
  simp only [get_ast_controllers, state_copy]
  by_cases hsym : ast.symbolic = true
  · simp only [hsym, Bool.not_true, Bool.false_eq_true, if_false]
    rw [(pin_to_test_val_state _ reg_deps test_state).2.2, if_pos h]
  · simp [hsym]

/-- Witness for C3: with a solver that enumerates two values even under
the pinned fork, the controller set comes back empty. -/
theorem get_ast_controllers_guard_witness :
    ((symDemoState.se.any_n_int
        (pin_to_test_val (0x4141414141414141 % (2 <<< symDemoState.bits))
          (state_copy symDemoState) ["rax"]).constraints
        (Expr.bvs 64 "sreg_rax-") 2).length > 1) ∧
    get_ast_controllers symDemoState (Expr.bvs 64 "sreg_rax-") ["rax"] = [] :=
  ⟨by decide,
   (get_ast_controllers_guard symDemoState (Expr.bvs 64 "sreg_rax-") ["rax"]).2.2
     (by decide)⟩

/-- A fold that either keeps its accumulator or appends the current
element only produces elements of the accumulator or of the list. -/
theorem foldl_conditional_append_mem {α : Type} (g : List α → α → List α)
    (hg : ∀ acc r, g acc r = acc ∨ g acc r = acc ++ [r]) :
    ∀ (l init : List α) (x : α), x ∈ l.foldl g init → x ∈ init ∨ x ∈ l := by
  intro l
  induction l with
  | nil => intro init x hx; exact Or.inl hx
  | cons r rest ih =>
      intro init x hx
      rw [List.foldl_cons] at hx
      rcases ih (g init r) x hx with h1 | h1
      · rcases hg init r with h2 | h2 <;> rw [h2] at h1
        · exact Or.inl h1
        · rcases List.mem_append.mp h1 with h3 | h3
          · exact Or.inl h3
          · rw [List.mem_singleton] at h3
            subst h3
            exact Or.inr (List.mem_cons_self x rest)
      · exact Or.inr (List.mem_cons_of_mem r h1)

/-- C8: every register name in the sequence returned by
`get_ast_controllers` is a member of the supplied dependency set; no
register outside that set is ever returned. -/
theorem get_ast_controllers_subset (test_state : SimState) (ast : Expr)
    (reg_deps : List String) :
    ∀ r ∈ get_ast_controllers test_state ast reg_deps, r ∈ reg_deps := by
  intro r hr
  simp only [get_ast_controllers, state_copy] at hr
  by_cases hsym : ast.symbolic = true
  · simp only [hsym, Bool.not_true, Bool.false_eq_true, if_false] at hr
    split at hr
    · simp at hr
    · rcases foldl_conditional_append_mem _
        (fun acc reg => by
          split
          · exact Or.inr rfl
          · exact Or.inl rfl)
        reg_deps [] r hr with h | h
      · simp at h
      · exact h
  · simp [hsym] at hr

/-- Witness for C8: a returned controller really is in the supplied
dependency set. -/
theorem get_ast_controllers_subset_witness :
    "rax" ∈ get_ast_controllers freeDemoState (Expr.bvs 64 "sreg_rax-") ["rax"] ∧
    "rax" ∈ ["rax"] :=
  ⟨by decide,
   get_ast_controllers_subset freeDemoState (Expr.bvs 64 "sreg_rax-") ["rax"] "rax"
     (by decide)⟩

/-- A freshly created path is not errored. -/
theorem entry_path_errored (s : SimState) : (entry_path s).errored = false := rfl

/-- C5: whenever the single step of the starting state's fresh path
completes (no unsupported-syscall error) with a successor count —
constrained plus unconstrained — other than exactly one, the stepper
fails with the ambiguous-successor error, for any step budget. -/
theorem stepper_ambiguous (project : Project) (state : SimState) (max_steps : Nat)
    (allow_simprocedures : Bool)
    (hsc : (project.step (entry_path (addOption state
        bypass_unsupported_syscall))).raises_unsupported_syscall = false)
    (hn : (project.step (entry_path (addOption state
          bypass_unsupported_syscall))).successors.length +
        (project.step (entry_path (addOption state
          bypass_unsupported_syscall))).unconstrained_successors.length ≠ 1) :
    (step_to_unconstrained_successor project state none max_steps
        allow_simprocedures).1 = Except.error StepFailure.ambiguousSuccessor := by
  have hclass : classifyStep project
      (entry_path (addOption state bypass_unsupported_syscall)) =
        StepClass.failed StepFailure.ambiguousSuccessor := by
    simp only [classifyStep, entry_path_errored, hsc, Bool.false_eq_true,
      if_false, if_true, ite_true, ite_false]
    rw [if_pos hn]
  rw [step_to_unconstrained_successor]
  cases max_steps with
  | zero => simp [stepDrive, hclass]
  | succ m => simp [stepDrive, hclass]

/-- Witness for C5: a step with two constrained successors makes the
stepper report the ambiguous-successor failure. -/
theorem stepper_ambiguous_witness :
    ((twoSuccProject.step (entry_path (addOption demoState
        bypass_unsupported_syscall))).raises_unsupported_syscall = false ∧
     (twoSuccProject.step (entry_path (addOption demoState
          bypass_unsupported_syscall))).successors.length +
        (twoSuccProject.step (entry_path (addOption demoState
          bypass_unsupported_syscall))).unconstrained_successors.length ≠ 1) ∧
    (step_to_unconstrained_successor twoSuccProject demoState none 2 false).1 =
      Except.error StepFailure.ambiguousSuccessor :=
  ⟨⟨rfl, by decide⟩, stepper_ambiguous twoSuccProject demoState 2 false rfl (by decide)⟩

/-- C6: when the single step of the starting state's fresh path yields
exactly one constrained successor and no unconstrained one, and the
remaining step budget is zero, the stepper fails with the
budget-exhausted error. -/
theorem stepper_budget (project : Project) (state : SimState)
    (allow_simprocedures : Bool) (s : Path)
    (hs : (project.step (entry_path (addOption state
        bypass_unsupported_syscall))).successors = [s])
    (hu : (project.step (entry_path (addOption state
        bypass_unsupported_syscall))).unconstrained_successors = [])
    (hsc : (project.step (entry_path (addOption state
        bypass_unsupported_syscall))).raises_unsupported_syscall = false) :
    (step_to_unconstrained_successor project state none 0 allow_simprocedures).1 =
      Except.error StepFailure.budgetExhausted := by
  have hclass : classifyStep project
      (entry_path (addOption state bypass_unsupported_syscall)) =
        StepClass.constrained s := by
    simp [classifyStep, entry_path_errored, hs, hu, hsc]
  rw [step_to_unconstrained_successor]
  simp [stepDrive, hclass]

/-- Witness for C6: with a single constrained successor and
`max_steps = 0`, the stepper reports budget exhaustion. -/
theorem stepper_budget_witness :
    ((oneSuccProject.step (entry_path (addOption demoState
        bypass_unsupported_syscall))).successors =
          [entry_path (addOption demoState bypass_unsupported_syscall)] ∧
     (oneSuccProject.step (entry_path (addOption demoState
        bypass_unsupported_syscall))).unconstrained_successors = [] ∧
     (oneSuccProject.step (entry_path (addOption demoState
        bypass_unsupported_syscall))).raises_unsupported_syscall = false) ∧
    (step_to_unconstrained_successor oneSuccProject demoState none 0 false).1 =
      Except.error StepFailure.budgetExhausted :=
  ⟨⟨rfl, rfl, rfl⟩,
   stepper_budget oneSuccProject demoState false
     (entry_path (addOption demoState bypass_unsupported_syscall)) rfl rfl rfl⟩

/-- Counterexample for C7: the stepper mutates the very state object the
caller passes in — after a call, the entry state's option set has
changed (the bypass-unsupported-syscall option was added in place). -/
theorem stepper_mutates_entry_state :
    (step_to_unconstrained_successor oneSuccProject demoState none 2 false).2.options ≠
      demoState.options := by
  decide

/-- C7 (amended): `get_ast_controllers` and `unconstrained_check` touch
only private forked copies, but the stepper does mutate the state passed
by the caller: after any call that state equals its old value with the
`BYPASS_UNSUPPORTED_SYSCALL` option added to its option set, this being
the only change (registers and constraints are untouched). -/
theorem stepper_mutation_profile (project : Project) (state : SimState)
    (path : Option Path) (max_steps : Nat) (allow_simprocedures : Bool) :
    (step_to_unconstrained_successor project state path max_steps
        allow_simprocedures).2 = addOption state bypass_unsupported_syscall ∧
    (step_to_unconstrained_successor project state path max_steps
        allow_simprocedures).2.regs = state.regs ∧
    (step_to_unconstrained_successor project state path max_steps
        allow_simprocedures).2.constraints = state.constraints ∧
    bypass_unsupported_syscall ∈
      (step_to_unconstrained_successor project state path max_steps
        allow_simprocedures).2.options := by
  have h2 : (step_to_unconstrained_successor project state path max_steps
      allow_simprocedures).2 = addOption state bypass_unsupported_syscall := rfl
  refine ⟨h2, ?_, ?_, ?_⟩ <;> rw [h2] <;> unfold addOption <;>
    by_cases h : bypass_unsupported_syscall ∈ state.options <;> simp [h]

/-- Adding one option never changes registers or the width field. -/
theorem addOption_state (s : SimState) (o : String) :
    (addOption s o).regs = s.regs ∧ (addOption s o).bits = s.bits := by
  unfold addOption
  by_cases h : o ∈ s.options <;> simp [h]

/-- Adding a collection of options never changes registers or width. -/
theorem addOptions_state (os : List String) :
    ∀ s : SimState, (addOptions s os).regs = s.regs ∧ (addOptions s os).bits = s.bits := by
  induction os with
  | nil => intro s; exact ⟨rfl, rfl⟩
  | cons o rest ih =>
      intro s
      exact ⟨((ih (addOption s o)).1).trans ((addOption_state s o).1),
        ((ih (addOption s o)).2).trans ((addOption_state s o).2)⟩

/-- Removing options never changes registers or the width field. -/
theorem removeOptions_state (s : SimState) (os : List String) :
    (removeOptions s os).regs = s.regs ∧ (removeOptions s os).bits = s.bits :=
  ⟨rfl, rfl⟩

/-- Discarding an option never changes registers or the width field. -/
theorem discardOption_state (s : SimState) (o : String) :
    (discardOption s o).regs = s.regs ∧ (discardOption s o).bits = s.bits :=
  ⟨rfl, rfl⟩

/-- Writing the symbolic stack to memory never changes registers or the
width field. -/
theorem write_symbolic_stack_state (project : Project) (stack_length : Nat)
    (s : SimState) :
    (write_symbolic_stack project stack_length s).regs = s.regs ∧
      (write_symbolic_stack project stack_length s).bits = s.bits :=
  ⟨rfl, rfl⟩

/-- Reading back the register just stored yields the stored value. -/
theorem setReg_get_self (s : SimState) (r : String) (e : Expr) :
    (setReg s r e).regs r = e := by
  simp [setReg]

/-- Counterexample for C1: on a 64-bit program with the stack pointer at
4096, the frame pointer of the built entry state evaluates to
`sp + 20 * 64 = sp + 1280` bytes, not to `sp + 20 * wordBytes =
sp + 160` as the claim states. -/
theorem make_initial_state_bp_cex :
    Expr.eval (fun _ => 0) ((make_initial_state oneSuccProject 200).regs "bp") ≠
      (Expr.eval (fun _ => 0) (oneSuccProject.blank_state.regs "sp") +
        20 * (oneSuccProject.blank_state.bits / 8)) % 2 ^ 64 := by
  decide

/-- C1 (amended): for every program handle and stack length, the state
returned by `make_initial_state` has its frame pointer bound to the
blank state's stack pointer plus the constant `20 * arch.bits` — twenty
times the word width in bits, i.e. `20 * wordBits` bytes, not twenty
words. -/
theorem make_initial_state_bp (project : Project) (stack_length : Nat) :
    (make_initial_state project stack_length).regs "bp" =
      Expr.add (project.blank_state.regs "sp")
        (Expr.const (project.blank_state.regs "sp").size
          (20 * project.blank_state.bits)) := by
  have hregs : (write_symbolic_stack project stack_length (rop_blank_state project)).regs
      = project.blank_state.regs := by
    rw [(write_symbolic_stack_state _ _ _).1, rop_blank_state,
      (addOptions_state rop_track_options _).1, (discardOption_state _ _).1,
      (removeOptions_state _ _).1, (addOptions_state rop_add_options _).1]
  have hbits : (write_symbolic_stack project stack_length (rop_blank_state project)).bits
      = project.blank_state.bits := by
    rw [(write_symbolic_stack_state _ _ _).2, rop_blank_state,
      (addOptions_state rop_track_options _).2, (discardOption_state _ _).2,
      (removeOptions_state _ _).2, (addOptions_state rop_add_options _).2]
  calc (make_initial_state project stack_length).regs "bp"
      = (set_rop_bp (write_symbolic_stack project stack_length
          (rop_blank_state project))).regs "bp" := rfl
    _ = Expr.add
          ((write_symbolic_stack project stack_length (rop_blank_state project)).regs "sp")
          (Expr.const ((write_symbolic_stack project stack_length
              (rop_blank_state project)).regs "sp").size
            (20 * (write_symbolic_stack project stack_length
              (rop_blank_state project)).bits)) := setReg_get_self _ _ _
    _ = Expr.add (project.blank_state.regs "sp")
          (Expr.const (project.blank_state.regs "sp").size
            (20 * project.blank_state.bits)) := by rw [hregs, hbits]

/-- C9: for every register listed in the architecture's table, resolving
that register's own base offset returns that register's name. -/
theorem get_reg_name_base_offset (arch : RegArch) (off : Nat) (name : String)
    (h : lookupTable arch.register_names off = some name) :
    get_reg_name arch (some (off : Int)) = Except.ok name := by
  rw [get_reg_name]
  rw [if_neg (by omega)]
  have ht : ((off : Int)).toNat = off := by omega
  rw [ht, regNameLoop, if_pos (by omega), h]

/-- Witness for C9: resolving `rbx`'s base offset 8 yields `rbx`. -/
theorem get_reg_name_base_offset_witness :
    lookupTable demoArch.register_names 8 = some "rbx" ∧
    get_reg_name demoArch (some ((8 : Nat) : Int)) = Except.ok "rbx" :=
  ⟨by decide, get_reg_name_base_offset demoArch 8 "rbx" (by decide)⟩

/-- The scan loop returns `some name` exactly when some offset below its
starting point, within the lower bound, maps to `name` and every higher
in-range offset is unmapped (the loop takes the greatest hit). -/
theorem regNameLoop_eq_some (table : List (Nat × String)) (bound : Int) :
    ∀ (k : Nat) (name : String),
      regNameLoop table bound k = some name ↔
        ∃ b : Nat, b < k ∧ bound ≤ (b : Int) ∧ lookupTable table b = some name ∧
          ∀ b' : Nat, b < b' → b' < k → lookupTable table b' = none := by
  intro k
  induction k with
  | zero =>
      intro name
      constructor
      · intro h; cases h
      · rintro ⟨b, hb, -, -, -⟩; omega
  | succ k ih =>
      intro name
      rw [regNameLoop]
      by_cases hb : bound ≤ (k : Int)
      · rw [if_pos hb]
        cases hl : lookupTable table k with
        | some nm =>
            constructor
            · intro h
              have hnm : nm = name := by injection h
              subst hnm
              exact ⟨k, Nat.lt_succ_self k, hb, hl, fun b' h1 h2 => by omega⟩
            · rintro ⟨b, hblt, hbb, hlook, hmax⟩
              rcases Nat.lt_succ_iff_lt_or_eq.mp hblt with h' | rfl
              · rw [hmax k h' (Nat.lt_succ_self k)] at hl
                cases hl
              · rw [hlook] at hl
                exact hl.symm
        | none =>
            rw [ih name]
            constructor
            · rintro ⟨b, hblt, hbb, hlook, hmax⟩
              refine ⟨b, by omega, hbb, hlook, fun b' h1 h2 => ?_⟩
              rcases Nat.lt_succ_iff_lt_or_eq.mp h2 with h2' | rfl
              · exact hmax b' h1 h2'
              · exact hl
            · rintro ⟨b, hblt, hbb, hlook, hmax⟩
              have hbk : b ≠ k := fun he => by rw [he, hl] at hlook; cases hlook
              refine ⟨b, by omega, hbb, hlook, fun b' h1 h2 => hmax b' h1 (by omega)⟩
      · rw [if_neg hb]
        constructor
        · intro h; cases h
        · rintro ⟨b, hblt, hbb, -, -⟩
          exfalso
          omega

/-- The scan loop returns `none` exactly when every in-range offset
below its starting point is unmapped. -/
theorem regNameLoop_eq_none (table : List (Nat × String)) (bound : Int) :
    ∀ k : Nat, regNameLoop table bound k = none ↔
      ∀ b : Nat, b < k → bound ≤ (b : Int) → lookupTable table b = none := by
  intro k
  induction k with
  | zero =>
      constructor
      · intro h b hb; omega
      · intro h; rfl
  | succ k ih =>
      rw [regNameLoop]
      by_cases hb : bound ≤ (k : Int)
      · rw [if_pos hb]
        cases hl : lookupTable table k with
        | some nm =>
            constructor
            · intro h; cases h
            · intro h
              rw [h k (Nat.lt_succ_self k) hb] at hl
              cases hl
        | none =>
            rw [ih]
            constructor
            · intro h b hblt hbb
              rcases Nat.lt_succ_iff_lt_or_eq.mp hblt with h' | rfl
              · exact h b h' hbb
              · exact hl
            · intro h b hblt hbb
              exact h b (by omega) hbb
      · rw [if_neg hb]
        constructor
        · intro _ b hblt hbb
          exfalso
          omega
        · intro _; rfl

/-- C10: for every non-`None` offset `o`, the resolver returns the name
of the register with the greatest base offset `b` in the table such that
`b ≤ o` and `b ≥ o - wordBytes` (base offsets being non-negative), so an
offset up to `wordBytes` bytes past a register's base resolves to that
register; and the not-found failure occurs exactly when no such base
exists. -/
theorem get_reg_name_resolution (arch : RegArch) (o : Int) :
    (∀ name : String,
        get_reg_name arch (some o) = Except.ok name ↔
          ∃ b : Nat, (b : Int) ≤ o ∧ o - ((arch.bits / 8 : Nat) : Int) ≤ (b : Int) ∧
            lookupTable arch.register_names b = some name ∧
            ∀ b' : Nat, b < b' → (b' : Int) ≤ o →
              lookupTable arch.register_names b' = none)
    ∧ ((∃ msg : String, get_reg_name arch (some o) = Except.error msg) ↔
        ∀ b : Nat, (b : Int) ≤ o → o - ((arch.bits / 8 : Nat) : Int) ≤ (b : Int) →
          lookupTable arch.register_names b = none) := by
  rw [get_reg_name]
  by_cases ho : o < 0
  · rw [if_pos ho]
    constructor
    · intro name
      constructor
      · intro h; cases h
      · rintro ⟨b, hb, -, -, -⟩; exfalso; omega
    · constructor
      · intro _ b hb
        exfalso
        omega
      · intro _
        exact ⟨"register " ++ toString o ++ " not found", rfl⟩
  · rw [if_neg ho]
    have hk : ∀ b : Nat, (b < o.toNat + 1) ↔ ((b : Int) ≤ o) := by
      intro b
      omega
    cases hloop : regNameLoop arch.register_names
        (o - ((arch.bits / 8 : Nat) : Int)) (o.toNat + 1) with
    | some nm =>
        obtain ⟨b, hblt, hbb, hlook, hmax⟩ :=
          (regNameLoop_eq_some arch.register_names
            (o - ((arch.bits / 8 : Nat) : Int)) (o.toNat + 1) nm).mp hloop
        constructor
        · intro name
          constructor
          · intro h
            have hnm : nm = name := by injection h
            subst hnm
            exact ⟨b, (hk b).mp hblt, hbb, hlook,
              fun b' h1 h2 => hmax b' h1 ((hk b').mpr h2)⟩
          · rintro ⟨c, hc1, hc2, hc3, hcmax⟩
            rcases Nat.lt_trichotomy b c with h' | rfl | h'
            · rw [hmax c h' ((hk c).mpr hc1)] at hc3
              cases hc3
            · rw [hlook] at hc3
              injection hc3 with h4
              rw [h4]
            · rw [hcmax b h' ((hk b).mp hblt)] at hlook
              cases hlook
        · constructor
          · rintro ⟨msg, hmsg⟩; cases hmsg
          · intro hall
            rw [hall b ((hk b).mp hblt) hbb] at hlook
            cases hlook
    | none =>
        have hall := (regNameLoop_eq_none arch.register_names
          (o - ((arch.bits / 8 : Nat) : Int)) (o.toNat + 1)).mp hloop
        constructor
        · intro name
          constructor
          · intro h; cases h
          · rintro ⟨b, hb1, hb2, hb3, -⟩
            rw [hall b ((hk b).mpr hb1) hb2] at hb3
            cases hb3
        · constructor
          · intro _ b hb1 hb2
            exact hall b ((hk b).mpr hb1) hb2
          · intro _
            exact ⟨"register " ++ toString o ++ " not found", rfl⟩

end Angrop
